import Mathlib

/-!
Shallow embedding of the autoclocker timesheet core: `timecalc.py` together
with the failure taxonomy of `excepts.py` and the call interface of
`aws_adp_client/scheduler_client.py`.

Conventions of the embedding.

* A naive local Python `datetime` is a single `Int`: its count of seconds
  since an arbitrary midnight-aligned epoch.  `dayStart`, `hourOf` and
  `minuteOf` recover exactly the fields the Python code reads
  (`time_date.hour`, `time_date.minute`, and the date part that is copied
  unchanged into the result).  Constructing
  `datetime(year, month, day, hour, minute)` validates `0 <= hour <= 23`
  and raises `ValueError` otherwise, so `round_datetime` returns an
  `Option Int` with `none` for that `ValueError`.
* A Python `timedelta` is an `Int` count of seconds.  `HOURS_RESOLUTION`
  appears as a parameter `r` counted in whole minutes (the shipped default
  is 15); `WORK_HOURS` appears as a parameter `W` in seconds.
* Lean `Int` division `/` and remainder `%` are Euclidean: for a positive
  divisor they agree with Python `//` and `%` on ints and on the
  integer-valued floats that occur in `round_datetime`.
-/

namespace Timecalc

/-- Seconds from the start of the day of `t` back to `t`'s midnight: the date
part of the instant, which `round_datetime` copies unchanged into its
result. -/
def dayStart (t : Int) : Int := t - t % 86400

/-- The `hour` field of the instant, in `0..23`. -/
def hourOf (t : Int) : Int := (t % 86400) / 3600

/-- The `minute` field of the instant, in `0..59`. -/
def minuteOf (t : Int) : Int := (t % 3600) / 60

/-- An instant on day zero with second field zero, for concrete test data. -/
def mkDT (h m : Int) : Int := 3600 * h + 60 * m

/-- An instant on day zero with an explicit second field. -/
def mkDTs (h m s : Int) : Int := 3600 * h + 60 * m + s

/-- Models the Python expression `round(m / r)` of `round_datetime`, for an
integer minute value `m` and an integer minute resolution `r > 0`.  Python
`round` on a float is round-half-to-even.  The Python code divides two
floats; for every `m` in `0..119` and integer `r >= 1` the quotient `m / r`
is exactly representable whenever it is a tie (a half-integer with small
numerator), and otherwise lies at distance at least `1/(2*r)` from any tie
while the float error is below `2^-45`, so the float result of `round`
coincides with round-half-to-even of the exact rational `m / r`, which is
what this integer-only definition computes. -/
def pyRoundDiv (m r : Int) : Int :=
  let q := m / r
  let rem := m % r
  if 2 * rem < r then q
  else if r < 2 * rem then q + 1
  else if q % 2 = 0 then q else q + 1

/-- Embedding of `round_datetime(time_date, time_resolution)`:

    minute_res = time_resolution.total_seconds() / 60
    minute_rounded = round(time_date.minute / minute_res) * minute_res
    hour_adj = time_date.hour + minute_rounded // 60
    minute_adj = minute_rounded % 60
    datetime_adj = datetime(year, month, day, hour=int(hour_adj), minute=int(minute_adj))

The `datetime` constructor raises `ValueError` unless `0 <= hour_adj <= 23`
(the minute field `minute_adj` is always in `0..59`), modelled by `none`. -/
def round_datetime (t r : Int) : Option Int :=
  let minute_rounded := pyRoundDiv (minuteOf t) r * r
  let hour_adj := hourOf t + minute_rounded / 60
  let minute_adj := minute_rounded % 60
  if 0 ≤ hour_adj ∧ hour_adj ≤ 23 then
    some (dayStart t + 3600 * hour_adj + 60 * minute_adj)
  else none

/-- The two list comprehensions
`[round_datetime(dt, HOURS_RESOLUTION) for dt in parsed_in]` (and the same
for `parsed_out`); `none` as soon as one rounding raises. -/
def roundAll (ts : List Int) (r : Int) : Option (List Int) :=
  match ts with
  | [] => some []
  | t :: rest =>
    match round_datetime t r, roundAll rest r with
    | some u, some us => some (u :: us)
    | _, _ => none

/-- The row comprehension of `calculate_time_table`: `zip_longest` pads the
shorter list with `None`; `time_or_next(t)` is `t or round_datetime(...)`,
so the provisional instant (passed here already computed, since it depends
only on `current_time`) is consulted only for a padded out-entry, and a
padded in-entry makes the row expression subtract `None`, a `TypeError`
(modelled by `none`). -/
def buildRows (rin rout : List Int) (provisional : Option Int) :
    Option (List (Int × Int × Int)) :=
  match rin, rout with
  | [], [] => some []
  | [], _ :: _ => none
  | tin :: ins, tout :: outs =>
    (buildRows ins outs provisional).map
      (fun rest => (tin, tout, tout - tin) :: rest)
  | tin :: ins, [] =>
    provisional.bind (fun p =>
      (buildRows ins [] provisional).map
        (fun rest => (tin, p, p - tin) :: rest))

/-- Embedding of `calculate_time_table(parsed_in, parsed_out, current_time)`
with the resolution `r` explicit.  The Python dict
`{'in': [...], 'out': [...], 'duration': [...]}` is represented by its list
of rows `(in, out, duration)`; the empty dict `{}` produced when there are
no rows is the empty row list. -/
def calculate_time_table (parsed_in parsed_out : List Int)
    (current_time r : Int) : Option (List (Int × Int × Int)) :=
  match roundAll parsed_in r with
  | none => none
  | some rounded_in =>
    match roundAll parsed_out r with
    | none => none
    | some rounded_out =>
      buildRows rounded_in rounded_out
        (round_datetime (current_time + 60 * r) r)

/-- `sum(times_dict['duration'], timedelta())`. -/
def durSum (rows : List (Int × Int × Int)) : Int :=
  (rows.map (fun row => row.2.2)).sum

/-- Embedding of `calculate_summary(times_dict, current_time)` with the
work target `W` explicit:

    if not times_dict: return (False, WORK_HOURS, None)
    time_remaining = WORK_HOURS - sum(times_dict['duration'], timedelta())
    is_in = times_dict['out'][-1] > current_time
    return (is_in, time_remaining, times_dict['out'][-1] + time_remaining if is_in else None)
-/
def calculate_summary (rows : List (Int × Int × Int)) (current_time W : Int) :
    Bool × Int × Option Int :=
  match rows.getLast? with
  | none => (false, W, none)
  | some (_, lastOut, _) =>
    let time_remaining := W - durSum rows
    (decide (current_time < lastOut), time_remaining,
      if current_time < lastOut then some (lastOut + time_remaining) else none)

/-- Embedding of `handle_auto(time_to_out, current_time, user, is_in)`.  The
returned list records every call made to the injected scheduler capability
`aws_scheduler.execute_saved_scheduler`, each with the `timedelta`
`exact_remaining = time_to_out - current_time` passed to it.  The code
performs no validation of that delta: when `is_in` it always makes exactly
one call, otherwise it prints a rejection and makes none. -/
def handle_auto (time_to_out current_time : Int) (is_in : Bool) : List Int :=
  if is_in then [time_to_out - current_time] else []

/-- The exceptions `parse_response` can raise: `SessionExpired` and
`ParseFailure` from `excepts.py`, plus the unclassified `TypeError` that
`len(None)` raises when `divActivities` is absent from the page. -/
inductive PyFailure
  | sessionExpired
  | parseFailure
  | typeError
deriving DecidableEq, Repr

/-- What a call of `parse_response` yields: the bare `return` (Python
`None`) taken on empty input, a `(parsed_in, parsed_out, parsed_time)`
snapshot, or a raised exception. -/
inductive ParseResult
  | pyNone
  | snapshot (parsed_in parsed_out : List Int) (parsed_time : Int)
  | error (f : PyFailure)
deriving DecidableEq, Repr

/-- Whether the call raised. -/
def ParseResult.isError : ParseResult → Bool
  | .error _ => true
  | _ => false

/-- Abstraction of the scraped page as `parse_response` observes it.
`divActivities` and `mainLoginWrapper` are the results of
`get_element_by_id(..., None)`: `none` when the element is absent,
otherwise the element's child count (lxml truthiness of an element is
`len(element) != 0`, i.e. whether it has children).  `sDate` is the
server-time token, already parsed; `timesIn`/`timesOut` are the regex
matches of the activities text, already parsed by `strptime`. -/
structure PageModel where
  isEmpty : Bool
  divActivities : Option Nat
  mainLoginWrapper : Option Nat
  sDate : Option Int
  timesIn : List Int
  timesOut : List Int
deriving DecidableEq, Repr

/-- Embedding of `parse_response(response_text)`:

    if not response_text: print(...); return
    div_activities = htmltree.get_element_by_id('divActivities', None)
    if len(div_activities) == 0:
        div_login = htmltree.get_element_by_id('mainLoginWrapper', None)
        if div_login: raise SessionExpired(...)
        raise ParseFailure(...)
    ... current_time is None -> raise ParseFailure ...
    if not times_in: return ([], [], parsed_time)
    return (parsed_in, parsed_out, parsed_time)

When `divActivities` is absent, `len(None)` raises `TypeError` before the
login check is reached. -/
def parse_response (p : PageModel) : ParseResult :=
  if p.isEmpty then .pyNone
  else
    match p.divActivities with
    | none => .error .typeError
    | some n =>
      if n = 0 then
        match p.mainLoginWrapper with
        | some m => if m ≠ 0 then .error .sessionExpired else .error .parseFailure
        | none => .error .parseFailure
      else
        match p.sDate with
        | none => .error .parseFailure
        | some t =>
          if p.timesIn = [] then .snapshot [] [] t
          else .snapshot p.timesIn p.timesOut t

/-- Observable interactions of one `main_withlogin` loop iteration with the
parsing and login collaborators. -/
inductive SessionEvent
  | parseEv
  | loginEv
deriving DecidableEq, Repr

/-- Embedding of the parse phase of one iteration of the `while True` loop
of `main_withlogin`:

    try:
        (...) = parse_response(response.text)
    except SessionExpired:
        (session, response) = login_session(username, password)
        (...) = parse_response(response.text)

`first` and `second` are the outcomes the two possible `parse_response`
calls would produce.  The result records the calls made (parse and login
events, in order) and the outcome the iteration ends the phase with; an
`error` outcome other than the first `sessionExpired` is an uncaught
exception propagating out of the loop. -/
def main_iteration_parse (first second : ParseResult) :
    List SessionEvent × ParseResult :=
  match first with
  | .error .sessionExpired => ([.parseEv, .loginEv, .parseEv], second)
  | r => ([.parseEv], r)

/-! Theorems settling the claims. -/

/-- Claim C4 (code bug): the spec demands that rounding be pure and total,
carrying minute overflow into the hour even in the last resolution
half-interval of hour 23; but `round_datetime` at `23:53` with a 15-minute
resolution computes `hour_adj = 24` and the `datetime` constructor raises
`ValueError`, so the code crashes exactly there.  The hour carry does work
one hour earlier (`22:53` rounds to `23:00`), isolating the failure to the
midnight overflow. -/
theorem C4_round_datetime_not_total :
    round_datetime (mkDT 23 53) 15 = none ∧
    round_datetime (mkDT 22 53) 15 = some (mkDT 23 0) := by
  decide

/-- Claim C5 counterexample: with a target 5 minutes in the past
(`delta = -300` seconds) and the user clocked in, `handle_auto` does not
fail fast and does not skip the scheduler: it performs exactly one call to
the injected scheduler capability, passing the non-positive delta. -/
theorem C5_cex_scheduler_called_on_past_target :
    handle_auto (mkDT 14 5) (mkDT 14 10) true = [-300] ∧
    handle_auto (mkDT 14 5) (mkDT 14 10) true ≠ [] := by
  decide

/-- Claim C5 amended: the auto-clockout handler performs no validation of
the delta.  Whenever the user is clocked in — in particular whenever
`time_to_out - current_time ≤ 0` — it makes exactly one call to the
injected scheduler capability with that delta; no `InvalidSchedule`
failure exists in the code.  When not clocked in it makes no call. -/
theorem C5_handle_auto_no_validation (time_to_out current_time : Int)
    (_hpast : time_to_out - current_time ≤ 0) :
    handle_auto time_to_out current_time true =
      [time_to_out - current_time] ∧
    (handle_auto time_to_out current_time true).length = 1 ∧
    handle_auto time_to_out current_time false = [] := by
  simp [handle_auto]

/-- Witness for the amended claim C5 at the concrete past target
`target = now - 5 minutes`. -/
theorem C5_witness :
    mkDT 14 5 - mkDT 14 10 ≤ 0 ∧
    handle_auto (mkDT 14 5) (mkDT 14 10) true = [mkDT 14 5 - mkDT 14 10] :=
  ⟨by decide, (C5_handle_auto_no_validation (mkDT 14 5) (mkDT 14 10)
      (by decide)).1⟩

/-- Claim C6 counterexample: on a page whose activity container is truly
absent (`get_element_by_id` returns `None`) while the login-form marker is
present, `parse_response` evaluates `len(None)` and raises an unclassified
`TypeError` — not `SessionExpired`. -/
theorem C6_cex_absent_container_type_error :
    parse_response ⟨false, none, some 3, some 0, [], []⟩ =
      ParseResult.error PyFailure.typeError ∧
    ParseResult.error PyFailure.typeError ≠
      ParseResult.error PyFailure.sessionExpired := by
  decide

/-- Claim C6 amended: for every page text in which the activity container
is present but empty (zero children, the condition
`len(div_activities) == 0` actually tested by the code) and the login-form
marker is present with at least one child (lxml element truthiness),
`parse_response` fails with `SessionExpired` — never `ParseFailure` and
never any other error.  When the container is wholly absent the code
instead raises an unclassified `TypeError` from `len(None)`. -/
theorem C6_empty_container_login_marker_session_expired (p : PageModel)
    (h0 : p.isEmpty = false) (h1 : p.divActivities = some 0)
    (m : Nat) (h2 : p.mainLoginWrapper = some m) (h3 : 0 < m) :
    parse_response p = ParseResult.error PyFailure.sessionExpired := by
  have hm : m ≠ 0 := by omega
  simp [parse_response, h0, h1, h2, hm]

/-- Witness for the amended claim C6 on a concrete session-expired page. -/
theorem C6_witness :
    parse_response ⟨false, some 0, some 2, some 0, [], []⟩ =
      ParseResult.error PyFailure.sessionExpired :=
  C6_empty_container_login_marker_session_expired _ rfl rfl 2 rfl (by decide)

/-- Claim C7 counterexample: on empty page text `parse_response` prints an
error and executes a bare `return`, yielding Python `None`: it returns
silently with no classified failure at all (there is no `EmptyResponse`
anywhere in the code), contradicting the claim that it fails with
`EmptyResponse`. -/
theorem C7_cex_empty_input_returns_none :
    parse_response ⟨true, some 1, some 1, some 0, [], []⟩ =
      ParseResult.pyNone ∧
    (parse_response ⟨true, some 1, some 1, some 0, [], []⟩).isError
      = false := by
  decide

/-- Claim C7 amended: for every empty page text input, `parse_response`
returns Python `None` after printing an error message: no snapshot is
returned and no failure is raised — the code has no `EmptyResponse`
failure kind. -/
theorem C7_empty_input_yields_none (p : PageModel) (h : p.isEmpty = true) :
    parse_response p = ParseResult.pyNone := by
  simp [parse_response, h]

/-- Witness for the amended claim C7 on a concrete empty page. -/
theorem C7_witness :
    parse_response ⟨true, none, none, none, [], []⟩ = ParseResult.pyNone :=
  C7_empty_input_yields_none ⟨true, none, none, none, [], []⟩ rfl

/-- Claim C8: in each iteration of the `main_withlogin` loop, a
`SessionExpired` from the first parse triggers exactly one re-login
followed by exactly one reparse, whose outcome — including a second
`SessionExpired`, which the `except` clause no longer guards — is the
iteration's final outcome and propagates to the caller; any first outcome
other than `SessionExpired` (success, or any other failure) triggers no
login and no reparse. -/
theorem C8_session_expired_single_retry (r1 r2 : ParseResult) :
    (r1 = ParseResult.error PyFailure.sessionExpired →
      main_iteration_parse r1 r2 =
        ([SessionEvent.parseEv, SessionEvent.loginEv, SessionEvent.parseEv],
          r2)) ∧
    (r1 ≠ ParseResult.error PyFailure.sessionExpired →
      main_iteration_parse r1 r2 = ([SessionEvent.parseEv], r1)) := by
  constructor
  · intro h
    subst h
    rfl
  · intro h
    match r1, h with
    | ParseResult.pyNone, _ => rfl
    | ParseResult.snapshot a b c, _ => rfl
    | ParseResult.error PyFailure.parseFailure, _ => rfl
    | ParseResult.error PyFailure.typeError, _ => rfl
    | ParseResult.error PyFailure.sessionExpired, h => exact absurd rfl h

/-- Witness for claim C8: a first `SessionExpired` followed by a second one
yields one re-login, one reparse, and the second expiry as the propagated
outcome; a first `ParseFailure` yields no retry at all. -/
theorem C8_witness :
    main_iteration_parse (ParseResult.error PyFailure.sessionExpired)
        (ParseResult.error PyFailure.sessionExpired) =
      ([SessionEvent.parseEv, SessionEvent.loginEv, SessionEvent.parseEv],
        ParseResult.error PyFailure.sessionExpired) ∧
    main_iteration_parse (ParseResult.error PyFailure.parseFailure)
        (ParseResult.pyNone) =
      ([SessionEvent.parseEv], ParseResult.error PyFailure.parseFailure) :=
  ⟨(C8_session_expired_single_retry
        (ParseResult.error PyFailure.sessionExpired)
        (ParseResult.error PyFailure.sessionExpired)).1 rfl,
    (C8_session_expired_single_retry
        (ParseResult.error PyFailure.parseFailure)
        (ParseResult.pyNone)).2 (by decide)⟩

/-! Arithmetic lemmas about the rounding engine. -/

/-- The multiple of `r` chosen by `pyRoundDiv` lies within half a
resolution of `m`, and a half-way value is resolved to the multiple with
even quotient. -/
theorem pyRoundDiv_spec (m r : Int) (hr : 0 < r) :
    (2 * (m - pyRoundDiv m r * r)).natAbs ≤ r.natAbs ∧
    ((2 * (m - pyRoundDiv m r * r)).natAbs = r.natAbs →
      pyRoundDiv m r % 2 = 0) := by
  have h2 : 0 ≤ m % r := Int.emod_nonneg m (by omega)
  have h3 : m % r < r := Int.emod_lt_of_pos m hr
  have e1 : m - m / r * r = m % r := by rw [Int.emod_def]; ring
  have e2 : m - (m / r + 1) * r = m % r - r := by rw [Int.emod_def]; ring
  simp only [pyRoundDiv]
  split
  · rw [e1]; omega
  · split
    · rw [e2]; omega
    · split
      · rw [e1]; omega
      · rw [e2]; omega

/-- No multiple of `r` is nearer to `m` than the one `pyRoundDiv`
chooses. -/
theorem pyRoundDiv_nearest (m r j : Int) (hr : 0 < r) :
    (2 * (m - pyRoundDiv m r * r)).natAbs ≤ (2 * (m - j * r)).natAbs := by
  rcases eq_or_ne j (pyRoundDiv m r) with h | h
  · rw [h]
  · have hb := (pyRoundDiv_spec m r hr).1
    have hd : 1 ≤ (pyRoundDiv m r - j).natAbs := by omega
    have hmul : r.natAbs ≤ ((pyRoundDiv m r - j) * r).natAbs := by
      rw [Int.natAbs_mul]
      calc r.natAbs = 1 * r.natAbs := (one_mul _).symm
        _ ≤ (pyRoundDiv m r - j).natAbs * r.natAbs :=
            Nat.mul_le_mul_right _ hd
    have hexp : m - j * r =
        m - pyRoundDiv m r * r + (pyRoundDiv m r - j) * r := by ring
    rw [hexp]
    generalize m - pyRoundDiv m r * r = A at hb ⊢
    generalize (pyRoundDiv m r - j) * r = B at hmul ⊢
    omega

/-- The rounded quotient of a nonnegative minute value is nonnegative. -/
theorem pyRoundDiv_nonneg (m r : Int) (h0 : 0 ≤ m) (hr : 0 < r) :
    0 ≤ pyRoundDiv m r := by
  have hq : 0 ≤ m / r := Int.ediv_nonneg h0 (by omega)
  simp only [pyRoundDiv]
  split
  · exact hq
  · split
    · omega
    · split <;> omega

/-- On an exact multiple of the resolution, `pyRoundDiv` is the exact
quotient, so the multiple is returned unchanged. -/
theorem pyRoundDiv_mul_of_dvd (a r : Int) (hr : 0 < r) (h : r ∣ a) :
    pyRoundDiv a r * r = a := by
  obtain ⟨c, rfl⟩ := h
  have h1 : r * c % r = 0 := Int.mul_emod_right r c
  have h2 : r * c / r = c := Int.mul_ediv_cancel_left c (by omega)
  simp only [pyRoundDiv]
  rw [h1, h2]
  split
  · ring
  · exfalso; omega

/-- A successful rounding keeps the date and replaces the sub-hour part:
the result is the hour-truncated instant plus sixty times the chosen
multiple of the resolution, with the minute overflow absorbed by the hour
term. -/
theorem round_datetime_eq_of_some (t r u : Int)
    (h : round_datetime t r = some u) :
    u = dayStart t + 3600 * hourOf t +
      60 * (pyRoundDiv (minuteOf t) r * r) := by
  simp only [round_datetime] at h
  split at h
  · simp only [Option.some.injEq] at h
    generalize pyRoundDiv (minuteOf t) r * r = mr at h ⊢
    omega
  · exact absurd h (by simp)

/-- Field arithmetic of the instant encoding. -/
theorem time_fields (t : Int) :
    t % 86400 = 3600 * hourOf t + 60 * minuteOf t + t % 60 ∧
    0 ≤ hourOf t ∧ hourOf t ≤ 23 ∧ 0 ≤ minuteOf t ∧ minuteOf t ≤ 59 ∧
    0 ≤ t % 60 ∧ t % 60 ≤ 59 ∧ dayStart t = t - t % 86400 ∧
    0 ≤ t % 86400 := by
  unfold hourOf minuteOf dayStart
  omega

/-- With the default 15-minute resolution, the chosen multiple differs
from the minute value by at most 7. -/
theorem k15_mul_bounds (m : Int) (_h0 : 0 ≤ m) (_h1 : m ≤ 59) :
    m - 7 ≤ pyRoundDiv m 15 * 15 ∧ pyRoundDiv m 15 * 15 ≤ m + 7 := by
  simp only [pyRoundDiv]
  split
  · omega
  · split
    · omega
    · split <;> omega

/-- A successful 15-minute rounding moves the second-truncated instant by
at most 7 minutes. -/
theorem round15_bounds (u p : Int) (h : round_datetime u 15 = some p) :
    u - u % 60 - 420 ≤ p ∧ p ≤ u - u % 60 + 420 := by
  have hf := time_fields u
  have hk := k15_mul_bounds (minuteOf u) (by omega) (by omega)
  have he := round_datetime_eq_of_some u 15 p h
  generalize pyRoundDiv (minuteOf u) 15 * 15 = mr at he hk
  omega

/-- Claim C3 counterexample: with a 2-minute resolution a minute value of
1 is exactly half way, and Python `round` sends `0.5` to `0` (half-even),
so `08:01` rounds DOWN to `08:00` — the claim says it rounds up to
`08:02`. -/
theorem C3_cex_tie_rounds_down :
    round_datetime (mkDT 8 1) 2 = some (mkDT 8 0) ∧
    mkDT 8 0 ≠ mkDT 8 2 := by
  decide

/-- Claim C3 amended: for every instant `t` and positive resolution `r`
(in minutes), `round_datetime` rounds the minute component to the nearest
multiple of `r` — no multiple is strictly nearer — but half-way values are
resolved to the multiple with even quotient (round-half-to-even, Python
`round`), not upward; the successful result is the hour-truncated instant
with that multiple as its sub-hour part, overflow carried into the hour.
The spec examples `08:07 -> 08:00` and `08:08 -> 08:15` for `r = 15` still
hold (checked in the witness). -/
theorem C3_round_nearest_half_even (t r : Int) (hr : 0 < r) :
    (∀ j : Int,
      (2 * (minuteOf t - pyRoundDiv (minuteOf t) r * r)).natAbs ≤
        (2 * (minuteOf t - j * r)).natAbs) ∧
    ((2 * (minuteOf t - pyRoundDiv (minuteOf t) r * r)).natAbs = r.natAbs →
      pyRoundDiv (minuteOf t) r % 2 = 0) ∧
    (∀ u, round_datetime t r = some u →
      u = dayStart t + 3600 * hourOf t +
        60 * (pyRoundDiv (minuteOf t) r * r)) :=
  ⟨fun j => pyRoundDiv_nearest (minuteOf t) r j hr,
    (pyRoundDiv_spec (minuteOf t) r hr).2,
    fun u h => round_datetime_eq_of_some t r u h⟩

/-- Witness for the amended claim C3 at `t = 08:08`, `r = 15`, together
with the spec's two concrete examples. -/
theorem C3_witness :
    ((0 : Int) < 15 ∧
      (2 * (minuteOf (mkDT 8 8) -
        pyRoundDiv (minuteOf (mkDT 8 8)) 15 * 15)).natAbs ≤
        (2 * (minuteOf (mkDT 8 8) - 0 * 15)).natAbs) ∧
    round_datetime (mkDT 8 7) 15 = some (mkDT 8 0) ∧
    round_datetime (mkDT 8 8) 15 = some (mkDT 8 15) :=
  ⟨⟨by decide, (C3_round_nearest_half_even (mkDT 8 8) 15 (by decide)).1 0⟩,
    by decide, by decide⟩

/-- Claim C9 counterexample: idempotence fails for the resolution
`r = 13` minutes: `08:59` rounds to `09:05`, but `09:05` rounds again to
`09:00`. -/
theorem C9_cex_not_idempotent_r13 :
    round_datetime (mkDT 8 59) 13 = some (mkDT 9 5) ∧
    round_datetime (mkDT 9 5) 13 = some (mkDT 9 0) ∧
    mkDT 9 0 ≠ mkDT 9 5 := by
  decide

/-- Claim C9 amended: rounding is idempotent for every resolution that
divides the hour evenly (`r ∣ 60`, which covers the configurable defaults
such as 15): whenever `round_datetime t r` succeeds with value `u`,
rounding `u` again succeeds and returns `u` itself.  For resolutions not
dividing 60 the carried minute remainder can leave the grid and
idempotence fails (see the counterexample). -/
theorem C9_round_idempotent_of_dvd (t r u : Int) (hr : 0 < r)
    (hdvd : r ∣ 60) (h : round_datetime t r = some u) :
    round_datetime u r = some u := by
  have hf := time_fields t
  have hk0 : 0 ≤ pyRoundDiv (minuteOf t) r :=
    pyRoundDiv_nonneg (minuteOf t) r (by omega) hr
  simp only [round_datetime] at h
  split at h
  case isFalse => exact absurd h (by simp)
  case isTrue hguard =>
  simp only [Option.some.injEq] at h
  have hdvdmr : r ∣ pyRoundDiv (minuteOf t) r * r :=
    dvd_mul_left r (pyRoundDiv (minuteOf t) r)
  have hmr0 : 0 ≤ pyRoundDiv (minuteOf t) r * r :=
    mul_nonneg hk0 (by omega)
  generalize hgen : pyRoundDiv (minuteOf t) r * r = mr
      at h hguard hdvdmr hmr0
  -- the minute field of the result and its divisibility
  have hdvdma : r ∣ mr % 60 := by
    have h60 : r ∣ 60 * (mr / 60) := Dvd.dvd.mul_right hdvd _
    have : mr % 60 = mr - 60 * (mr / 60) := by rw [Int.emod_def]
    rw [this]
    exact dvd_sub hdvdmr h60
  have hma0 : 0 ≤ mr % 60 := Int.emod_nonneg mr (by omega)
  have hma59 : mr % 60 ≤ 59 := by omega
  -- the fields of u
  have hufields := time_fields u
  have hhu : hourOf u = hourOf t + mr / 60 := by
    unfold hourOf minuteOf dayStart at *
    omega
  have hmu : minuteOf u = mr % 60 := by
    unfold hourOf minuteOf dayStart at *
    omega
  have hdu : dayStart u = dayStart t := by
    unfold hourOf minuteOf dayStart at *
    omega
  simp only [round_datetime, hmu, hhu, hdu,
    pyRoundDiv_mul_of_dvd (mr % 60) r hr hdvdma]
  split
  · simp only [Option.some.injEq]
    omega
  · exfalso
    omega

/-- Witness for the amended claim C9 at `t = 08:07`, `r = 15`. -/
theorem C9_witness :
    ((0 : Int) < 15 ∧ (15 : Int) ∣ 60 ∧
      round_datetime (mkDT 8 7) 15 = some (mkDT 8 0)) ∧
    round_datetime (mkDT 8 0) 15 = some (mkDT 8 0) :=
  ⟨⟨by decide, by decide, by decide⟩,
    C9_round_idempotent_of_dvd (mkDT 8 7) 15 (mkDT 8 0) (by decide)
      (by decide) (by decide)⟩

/-! Structural lemmas about the table builder. -/

/-- Rounding a list preserves its length. -/
theorem roundAll_length (ts : List Int) (r : Int) :
    ∀ us, roundAll ts r = some us → us.length = ts.length := by
  induction ts with
  | nil =>
    intro us h
    simp only [roundAll, Option.some.injEq] at h
    subst h
    rfl
  | cons t rest ih =>
    intro us h
    simp only [roundAll] at h
    cases hu : round_datetime t r <;> rw [hu] at h
    · simp at h
    · cases hrec : roundAll rest r <;> rw [hrec] at h
      · simp at h
      · rename_i u us2
        simp only [Option.some.injEq] at h
        subst h
        simp [ih us2 hrec]

/-- The last element of a successfully rounded list is the rounding of the
last input element. -/
theorem roundAll_getLast (ts : List Int) (r : Int) :
    ∀ us t0, roundAll ts r = some us → ts.getLast? = some t0 →
      ∃ u0, us.getLast? = some u0 ∧ round_datetime t0 r = some u0 := by
  induction ts with
  | nil =>
    intro us t0 _h hl
    simp at hl
  | cons t rest ih =>
    intro us t0 h hl
    simp only [roundAll] at h
    cases hu : round_datetime t r <;> rw [hu] at h
    · simp at h
    · cases hrec : roundAll rest r <;> rw [hrec] at h
      · simp at h
      · rename_i u us2
        simp only [Option.some.injEq] at h
        subst h
        cases rest with
        | nil =>
          simp only [roundAll, Option.some.injEq] at hrec
          subst hrec
          simp only [List.getLast?_singleton, Option.some.injEq] at hl
          subst hl
          exact ⟨u, by simp, hu⟩
        | cons t2 rest2 =>
          have hne : us2 ≠ [] := by
            intro hnil
            have hlen := roundAll_length (t2 :: rest2) r us2 hrec
            rw [hnil] at hlen
            simp at hlen
          rw [List.getLast?_cons_cons] at hl
          obtain ⟨u0, hu0, hr0⟩ := ih us2 t0 hrec hl
          refine ⟨u0, ?_, hr0⟩
          cases us2 with
          | nil => exact absurd rfl hne
          | cons a b => rw [List.getLast?_cons_cons]; exact hu0

/-- A successfully built table has one row per (rounded) in-instant, keeps
the in-instants in input order, and every row's duration is its out-instant
minus its in-instant. -/
theorem buildRows_spec (rin : List Int) : ∀ rout prov rows,
    buildRows rin rout prov = some rows →
    rows.length = rin.length ∧
    rows.map (fun row => row.1) = rin ∧
    ∀ row ∈ rows, row.2.2 = row.2.1 - row.1 := by
  induction rin with
  | nil =>
    intro rout prov rows h
    cases rout with
    | nil =>
      simp only [buildRows, Option.some.injEq] at h
      subst h
      simp
    | cons a as => simp [buildRows] at h
  | cons tin ins ih =>
    intro rout prov rows h
    cases rout with
    | nil =>
      cases prov with
      | none => simp [buildRows] at h
      | some p =>
        cases hrec : buildRows ins [] (some p) with
        | none => simp [buildRows, hrec] at h
        | some rest =>
          simp only [buildRows, hrec] at h
          simp only [Option.some_bind, Option.map_some', Option.some.injEq]
            at h
          subst h
          obtain ⟨hl, hm, hd⟩ := ih [] (some p) rest hrec
          refine ⟨by simp [hl], by simp [hm], ?_⟩
          intro row hrow
          rcases List.mem_cons.1 hrow with h1 | h2
          · subst h1; simp
          · exact hd row h2
    | cons tout outs =>
      cases hrec : buildRows ins outs prov with
      | none => simp [buildRows, hrec] at h
      | some rest =>
        simp only [buildRows, hrec] at h
        simp only [Option.map_some', Option.some.injEq] at h
        subst h
        obtain ⟨hl, hm, hd⟩ := ih outs prov rest hrec
        refine ⟨by simp [hl], by simp [hm], ?_⟩
        intro row hrow
        rcases List.mem_cons.1 hrow with h1 | h2
        · subst h1; simp
        · exact hd row h2

/-- With more out-instants than in-instants, `zip_longest` pads the
in-side with `None` and the row expression raises: the builder is
undefined. -/
theorem buildRows_none_of_lt (rin : List Int) : ∀ rout prov,
    rin.length < rout.length → buildRows rin rout prov = none := by
  induction rin with
  | nil =>
    intro rout prov h
    cases rout with
    | nil => simp at h
    | cons a as => simp [buildRows]
  | cons tin ins ih =>
    intro rout prov h
    cases rout with
    | nil => simp at h
    | cons tout outs =>
      have hlt : ins.length < outs.length := by
        simp only [List.length_cons] at h
        omega
      simp [buildRows, ih outs prov hlt]

/-- With exactly one open interval, the successfully built table ends in
the provisional row: the last rounded in-instant paired with the
provisional instant, whose construction therefore succeeded. -/
theorem buildRows_last_open (rin : List Int) : ∀ rout prov rows,
    rout.length + 1 = rin.length →
    buildRows rin rout prov = some rows →
    ∃ p tin, prov = some p ∧ rin.getLast? = some tin ∧
      rows.getLast? = some (tin, p, p - tin) := by
  induction rin with
  | nil =>
    intro rout prov rows hlen _h
    simp at hlen
  | cons tin ins ih =>
    intro rout prov rows hlen h
    cases rout with
    | nil =>
      have hins : ins = [] := by
        cases ins with
        | nil => rfl
        | cons a b =>
          simp only [List.length_nil, List.length_cons] at hlen
          omega
      subst hins
      cases prov with
      | none => simp [buildRows] at h
      | some p =>
        simp only [buildRows] at h
        simp only [Option.some_bind, Option.map_some', Option.some.injEq] at h
        subst h
        exact ⟨p, tin, rfl, by simp, by simp⟩
    | cons tout outs =>
      cases hrec : buildRows ins outs prov with
      | none => simp [buildRows, hrec] at h
      | some rest =>
        simp only [buildRows, hrec] at h
        simp only [Option.map_some', Option.some.injEq] at h
        subst h
        have hlen2 : outs.length + 1 = ins.length := by
          simp only [List.length_cons] at hlen
          omega
        obtain ⟨p, tlast, hp, hinl, hrl⟩ := ih outs prov rest hlen2 hrec
        refine ⟨p, tlast, hp, ?_, ?_⟩
        · cases ins with
          | nil => simp at hlen2
          | cons a b => rw [List.getLast?_cons_cons]; exact hinl
        · cases rest with
          | nil => simp at hrl
          | cons a b => rw [List.getLast?_cons_cons]; exact hrl

/-- Claim C10 counterexample: the snapshot `in = [23:53]`, `out = []`
satisfies the invariant `len(out) = len(in) - 1` with `len(in) ≥ 1`, yet
the builder is undefined on it (rounding `23:53` raises, claim C4), so the
built timetable does not have the claimed length-1 sequences. -/
theorem C10_cex_crash_inside_invariant :
    ([] : List Int).length + 1 = ([mkDT 23 53] : List Int).length ∧
    calculate_time_table [mkDT 23 53] [] (mkDT 12 0) 15 = none := by
  decide

/-- Claim C10 amended: whenever the builder actually returns a timetable
(which, under the invariant, requires every clock instant — and the
provisional synthesis when an interval is open — to round without
overflowing past hour 23, see C4), the in/out/duration rows number exactly
`len(in)`, every row's duration is its out-instant minus its in-instant,
the in-instants appear in input order as their roundings, and an empty
snapshot builds the empty table.  Whenever `len(out) > len(in)` the
builder is undefined. -/
theorem C10_table_shape :
    (∀ pin pout now r rows,
      (pout.length = pin.length ∨ pout.length + 1 = pin.length) →
      calculate_time_table pin pout now r = some rows →
      rows.length = pin.length ∧
      (∀ row ∈ rows, row.2.2 = row.2.1 - row.1) ∧
      (∃ rin, roundAll pin r = some rin ∧
        rows.map (fun row => row.1) = rin) ∧
      (pin = [] → rows = [])) ∧
    (∀ pin pout now r, pin.length < pout.length →
      calculate_time_table pin pout now r = none) := by
  constructor
  · intro pin pout now r rows _hinv hc
    simp only [calculate_time_table] at hc
    cases hin : roundAll pin r <;> rw [hin] at hc
    · simp at hc
    · cases hout : roundAll pout r <;> rw [hout] at hc
      · simp at hc
      · rename_i rin rout
        obtain ⟨hl, hm, hd⟩ := buildRows_spec rin rout _ rows hc
        have hlin := roundAll_length pin r rin hin
        refine ⟨by omega, hd, ⟨rin, rfl, hm⟩, ?_⟩
        intro hnil
        subst hnil
        simp only [roundAll, Option.some.injEq] at hin
        subst hin
        simp only [List.length_nil] at hl
        exact List.length_eq_zero.1 hl
  · intro pin pout now r hlt
    simp only [calculate_time_table]
    cases hin : roundAll pin r
    · rfl
    · cases hout : roundAll pout r
      · rfl
      · rename_i rin rout
        have h1 := roundAll_length pin r rin hin
        have h2 := roundAll_length pout r rout hout
        exact buildRows_none_of_lt rin rout _ (by omega)

/-- Witness for the amended claim C10: the spec's end-to-end snapshot
builds a 2-row table, and a snapshot with more outs than ins is rejected. -/
theorem C10_witness :
    calculate_time_table [mkDT 9 0, mkDT 13 0] [mkDT 12 0] (mkDT 14 10) 15 =
      some [(mkDT 9 0, mkDT 12 0, 10800), (mkDT 13 0, mkDT 14 30, 5400)] ∧
    ([(mkDT 9 0, mkDT 12 0, 10800),
      (mkDT 13 0, mkDT 14 30, 5400)] : List (Int × Int × Int)).length =
      ([mkDT 9 0, mkDT 13 0] : List Int).length ∧
    calculate_time_table [] [mkDT 12 0] (mkDT 14 10) 15 = none := by
  refine ⟨by decide, ?_, ?_⟩
  · exact (C10_table_shape.1 [mkDT 9 0, mkDT 13 0] [mkDT 12 0]
      (mkDT 14 10) 15
      [(mkDT 9 0, mkDT 12 0, 10800), (mkDT 13 0, mkDT 14 30, 5400)]
      (Or.inr (by decide)) (by decide)).1
  · exact C10_table_shape.2 [] [mkDT 12 0] (mkDT 14 10) 15 (by decide)

/-- Claim C2 counterexample: for the spec's own snapshot with
`serverNow = 14:10` and a 15-minute resolution, the synthesized
provisional out-instant is `round(14:25, 15min) = 14:30` — not `14:15`,
which would be the next boundary strictly after `14:10`. -/
theorem C2_cex_provisional_is_1430 :
    calculate_time_table [mkDT 9 0, mkDT 13 0] [mkDT 12 0] (mkDT 14 10) 15 =
      some [(mkDT 9 0, mkDT 12 0, 10800), (mkDT 13 0, mkDT 14 30, 5400)] ∧
    round_datetime (mkDT 14 10 + 60 * 15) 15 = some (mkDT 14 30) ∧
    mkDT 14 30 ≠ mkDT 14 15 := by
  decide

/-- Claim C2 amended: for every snapshot with an open interval, the
synthesized provisional out-instant equals
`round(serverNow + resolution, resolution)` — with the default 15-minute
resolution this is the resolution-grid instant nearest `serverNow + 15min`
(so it can be up to two boundaries after `serverNow`, e.g. `14:10 ↦
14:30`), it is always strictly after `serverNow`, and the provisional
interval's duration is strictly positive whenever the open interval's
in-instant is not in the future. -/
theorem C2_provisional_round_now_plus_res (pin pout : List Int) (now : Int)
    (rows : List (Int × Int × Int)) (ti tOut d : Int)
    (hlen : pout.length + 1 = pin.length)
    (hc : calculate_time_table pin pout now 15 = some rows)
    (hlast : rows.getLast? = some (ti, tOut, d)) :
    round_datetime (now + 60 * 15) 15 = some tOut ∧
    now < tOut ∧ d = tOut - ti ∧
    (∀ tin, pin.getLast? = some tin → tin ≤ now → 0 < d) := by
  simp only [calculate_time_table] at hc
  cases hin : roundAll pin 15 <;> rw [hin] at hc
  · simp at hc
  · cases hout : roundAll pout 15 <;> rw [hout] at hc
    · simp at hc
    · rename_i rin rout
      have hlin := roundAll_length pin 15 rin hin
      have hlout := roundAll_length pout 15 rout hout
      obtain ⟨p, tlast, hp, hinl, hrl⟩ :=
        buildRows_last_open rin rout _ rows (by omega) hc
      rw [hlast] at hrl
      simp only [Option.some.injEq, Prod.mk.injEq] at hrl
      obtain ⟨hti, hto, hd⟩ := hrl
      have hb := round15_bounds (now + 60 * 15) p hp
      refine ⟨by rw [hto]; exact hp, by omega, by omega, ?_⟩
      intro tin htin hle
      obtain ⟨u0, hu0, hr0⟩ := roundAll_getLast pin 15 rin tin hin htin
      rw [hinl] at hu0
      simp only [Option.some.injEq] at hu0
      subst hu0
      have hbin := round15_bounds tin tlast hr0
      omega

/-- Witness for the amended claim C2 at the spec's end-to-end snapshot. -/
theorem C2_witness :
    (([mkDT 12 0] : List Int).length + 1 =
        ([mkDT 9 0, mkDT 13 0] : List Int).length ∧
      calculate_time_table [mkDT 9 0, mkDT 13 0] [mkDT 12 0]
        (mkDT 14 10) 15 =
        some [(mkDT 9 0, mkDT 12 0, 10800), (mkDT 13 0, mkDT 14 30, 5400)]) ∧
    round_datetime (mkDT 14 10 + 60 * 15) 15 = some (mkDT 14 30) ∧
    mkDT 14 10 < mkDT 14 30 := by
  refine ⟨⟨by decide, by decide⟩, ?_, ?_⟩
  · exact (C2_provisional_round_now_plus_res [mkDT 9 0, mkDT 13 0]
      [mkDT 12 0] (mkDT 14 10)
      [(mkDT 9 0, mkDT 12 0, 10800), (mkDT 13 0, mkDT 14 30, 5400)]
      (mkDT 13 0) (mkDT 14 30) 5400
      (by decide) (by decide) (by decide)).1
  · exact (C2_provisional_round_now_plus_res [mkDT 9 0, mkDT 13 0]
      [mkDT 12 0] (mkDT 14 10)
      [(mkDT 9 0, mkDT 12 0, 10800), (mkDT 13 0, mkDT 14 30, 5400)]
      (mkDT 13 0) (mkDT 14 30) 5400
      (by decide) (by decide) (by decide)).2.1

/-- Claim C1 counterexample: for the spec's snapshot
(`in = [09:00, 13:00]`, `out = [12:00]`, `serverNow = 14:10`, 15-minute
resolution, 8-hour target) the code recommends clocking out at `18:00` —
not `16:45` as the claim computes, and also not
`last in-instant + timeRemaining = 13:00 + 3:30 = 16:30`. -/
theorem C1_cex_recommendation_is_1800 :
    calculate_time_table [mkDT 9 0, mkDT 13 0] [mkDT 12 0] (mkDT 14 10) 15 =
      some [(mkDT 9 0, mkDT 12 0, 10800), (mkDT 13 0, mkDT 14 30, 5400)] ∧
    (calculate_summary
        [(mkDT 9 0, mkDT 12 0, 10800), (mkDT 13 0, mkDT 14 30, 5400)]
        (mkDT 14 10) 28800).2.2 = some (mkDT 18 0) ∧
    mkDT 18 0 ≠ mkDT 16 45 ∧
    mkDT 18 0 ≠ mkDT 13 0 + (28800 - durSum
      [(mkDT 9 0, mkDT 12 0, 10800), (mkDT 13 0, mkDT 14 30, 5400)]) := by
  decide

/-- Claim C1 amended: for every built timetable in which the employee is
currently clocked in (server-now strictly before the last out-instant),
the recommended clock-out instant equals the LAST OUT-INSTANT (the
provisional one) plus the current timeRemaining — equivalently, the last
in-instant plus the target minus the other (committed) intervals'
durations.  For the spec's snapshot this is `14:30 + 3:30 = 18:00`. -/
theorem C1_recommendation_last_out_plus_remaining (pin pout : List Int)
    (now r W : Int) (rows : List (Int × Int × Int)) (ti tOut d : Int)
    (hc : calculate_time_table pin pout now r = some rows)
    (hlast : rows.getLast? = some (ti, tOut, d))
    (hin : now < tOut) :
    calculate_summary rows now W =
      (true, W - durSum rows, some (tOut + (W - durSum rows))) ∧
    tOut + (W - durSum rows) = ti + (W - durSum rows.dropLast) := by
  constructor
  · simp only [calculate_summary, hlast]
    simp [hin]
  · simp only [calculate_time_table] at hc
    cases hin2 : roundAll pin r <;> rw [hin2] at hc
    · simp at hc
    · cases hout : roundAll pout r <;> rw [hout] at hc
      · simp at hc
      · rename_i rin rout
        have hd := (buildRows_spec rin rout _ rows hc).2.2
        have hsplit : rows.dropLast ++ [(ti, tOut, d)] = rows :=
          List.dropLast_append_getLast? _ hlast
        have hmem : (ti, tOut, d) ∈ rows := by
          rw [← hsplit]
          exact List.mem_append_right _ (by simp)
        have hdur : d = tOut - ti := by simpa using hd _ hmem
        have hsum : durSum rows = durSum rows.dropLast + d := by
          conv_lhs => rw [← hsplit]
          simp [durSum]
        omega

/-- Witness for the amended claim C1 at the spec's end-to-end snapshot:
the summary reports clocked-in, `timeRemaining = 3:30`, and recommends
`14:30 + 3:30 = 18:00`. -/
theorem C1_witness :
    (calculate_time_table [mkDT 9 0, mkDT 13 0] [mkDT 12 0]
        (mkDT 14 10) 15 =
        some [(mkDT 9 0, mkDT 12 0, 10800), (mkDT 13 0, mkDT 14 30, 5400)] ∧
      mkDT 14 10 < mkDT 14 30) ∧
    calculate_summary
        [(mkDT 9 0, mkDT 12 0, 10800), (mkDT 13 0, mkDT 14 30, 5400)]
        (mkDT 14 10) 28800 =
      (true,
        28800 - durSum
          [(mkDT 9 0, mkDT 12 0, 10800), (mkDT 13 0, mkDT 14 30, 5400)],
        some (mkDT 14 30 + (28800 - durSum
          [(mkDT 9 0, mkDT 12 0, 10800), (mkDT 13 0, mkDT 14 30, 5400)]))) := by
  refine ⟨⟨by decide, by decide⟩, ?_⟩
  exact (C1_recommendation_last_out_plus_remaining [mkDT 9 0, mkDT 13 0]
    [mkDT 12 0] (mkDT 14 10) 15 28800
    [(mkDT 9 0, mkDT 12 0, 10800), (mkDT 13 0, mkDT 14 30, 5400)]
    (mkDT 13 0) (mkDT 14 30) 5400
    (by decide) (by decide) (by decide)).1

end Timecalc
